import Mathlib

/-!
Verification development for the AML transaction-monitoring pipeline
(backend/app/ml and backend/app/services).  The Python source is shallowly
embedded: pure numeric code becomes Lean functions over `Nat`/`Int`/`Rat`
(and `Real` where the source calls transcendental routines such as
`np.log1p` / `np.std`), stateful persistence becomes explicit state
passing, and code that can raise becomes `Option`/`Except`.
-/

set_option maxRecDepth 16000

namespace AML

/-! ## Train / validation / test split sizes (trainer.py, lines 78-82)

`train` performs two successive calls of sklearn's `train_test_split`,
both with `test_size=0.15`:

    idx_tv, idx_test = train_test_split(idx, test_size=0.15, ...)
    idx_train, idx_val = train_test_split(idx_tv, test_size=0.15, ...)

sklearn computes the held-out size of a split of `m` elements with a
float `test_size` of 0.15 as `ceil(0.15 * m)`; in exact arithmetic that
is `⌈3m/20⌉ = (3m + 19) / 20` in natural-number division. -/

/-- Size of the held-out part of one sklearn `train_test_split` with
`test_size=0.15` applied to `m` samples: `⌈0.15 · m⌉`. -/
def holdoutSize (m : ℕ) : ℕ := (3 * m + 19) / 20

/-- Size of the test part of the trainer's split of `n` entities
(first `train_test_split`, `test_size=0.15`). -/
def testSize (n : ℕ) : ℕ := holdoutSize n

/-- Size of the validation part: the second `train_test_split` is applied
to the remaining `n - testSize n` indices, again with `test_size=0.15`. -/
def valSize (n : ℕ) : ℕ := holdoutSize (n - testSize n)

/-- Size of the train part: what remains after the two held-out parts. -/
def trainSize (n : ℕ) : ℕ := n - testSize n - valSize n

/-! ## Classification metrics (metrics.py, lines 9-25)

`compute_classification_metrics` calls sklearn's `f1_score` with
`zero_division=0`, i.e. `f1 = 2·TP / (2·TP + FP + FN)` and `0` when the
denominator is zero.  Labels and predictions are 0/1 integer sequences,
paired positionally. -/

/-- Number of positionally paired (true, pred) samples equal to a given
(t, p) pair. -/
def pairCount (yTrue yPred : List ℕ) (t p : ℕ) : ℕ :=
  ((yTrue.zip yPred).filter (fun q => q.1 = t ∧ q.2 = p)).length

/-- True positives. -/
def tp (yTrue yPred : List ℕ) : ℕ := pairCount yTrue yPred 1 1

/-- False positives. -/
def fp (yTrue yPred : List ℕ) : ℕ := pairCount yTrue yPred 0 1

/-- False negatives. -/
def fn (yTrue yPred : List ℕ) : ℕ := pairCount yTrue yPred 1 0

/-- sklearn `f1_score(..., zero_division=0)`: `2TP/(2TP+FP+FN)`, and `0`
when the denominator vanishes. -/
def f1Score (yTrue yPred : List ℕ) : ℚ :=
  let t := tp yTrue yPred
  let den := 2 * t + fp yTrue yPred + fn yTrue yPred
  if den = 0 then 0 else (2 * t : ℚ) / den

/-- Thresholded prediction used by the trainer: `(prob > 0.5).astype(int)`. -/
def predAt (p : ℚ) : ℕ := if 1 / 2 < p then 1 else 0

/-! ## Validation-F1 computation in the training loop (trainer.py, 121-131)

Every 10 epochs the trainer computes

    val_pred = (val_prob[val_mask.numpy()] > 0.5).astype(int)
    vm = compute_classification_metrics(labels[idx_val], val_pred, val_prob[idx_val])

`val_mask` is a boolean mask that is `True` exactly at the positions in
`idx_val`; numpy boolean-mask indexing returns the selected elements in
ascending position order, whereas `labels[idx_val]` returns the labels
in the (shuffled) order of `idx_val` itself. -/

/-- numpy boolean-mask selection: elements of `xs` whose position lies in
`idx`, in ascending position order. -/
def maskSelect (xs : List ℚ) (idx : List ℕ) : List ℚ :=
  (((List.range xs.length).filter (fun i => idx.contains i)).map
    (fun i => xs.getD i 0))

/-- numpy integer-array ("fancy") indexing: elements of `xs` at the
positions of `idx`, in the order of `idx`. -/
def fancySelectQ (xs : List ℚ) (idx : List ℕ) : List ℚ :=
  idx.map (fun i => xs.getD i 0)

/-- Fancy indexing for integer label arrays. -/
def fancySelectN (xs : List ℕ) (idx : List ℕ) : List ℕ :=
  idx.map (fun i => xs.getD i 0)

/-- The validation F1 exactly as the training loop computes it:
predictions from the boolean mask (ascending position order) paired with
`labels[idx_val]` (order of `idx_val`). -/
def codeValF1 (labels : List ℕ) (probs : List ℚ) (idxVal : List ℕ) : ℚ :=
  f1Score (fancySelectN labels idxVal) ((maskSelect probs idxVal).map predAt)

/-- The validation F1 the specification describes: each validation
entity's prediction paired with that same entity's label. -/
def alignedValF1 (labels : List ℕ) (probs : List ℚ) (idxVal : List ℕ) : ℚ :=
  f1Score (fancySelectN labels idxVal) ((fancySelectQ probs idxVal).map predAt)

/-! ## Fallback GraphSAGE layer (gnn_model.py, lines 69-84)

The pure-PyTorch fallback layer `_sage` computes

    agg.scatter_add_(0, dst, x[src]); counts.scatter_add_(0, dst, 1)
    agg = agg / (counts + 1e-8)
    return cat([lin_self(x), lin_neigh(agg)], dim=-1)

Feature matrices are `Fin n → Fin d → ℚ` (one row per node), edge lists
are lists of (src, dst) pairs, and `nn.Linear` is an affine map. -/

/-- An `nn.Linear(inDim, outDim)` layer: weight matrix and bias. -/
structure LinLayer (inDim outDim : ℕ) where
  w : Fin outDim → Fin inDim → ℚ
  b : Fin outDim → ℚ

/-- Application of a linear layer: `W·v + b`. -/
def LinLayer.applyVec {inDim outDim : ℕ} (l : LinLayer inDim outDim)
    (v : Fin inDim → ℚ) : Fin outDim → ℚ :=
  fun i => (Finset.univ.sum fun j => l.w i j * v j) + l.b i

/-- The epsilon guarding the neighbor-mean denominator (`1e-8`). -/
def sageEps : ℚ := 1 / 100000000

/-- `agg.scatter_add_(0, dst..., x[src])`: fold over the edge list adding
the source row of `x` into the destination row of the accumulator. -/
def scatterAddNeigh {n d : ℕ} (x : Fin n → Fin d → ℚ)
    (edges : List (Fin n × Fin n)) : Fin n → Fin d → ℚ :=
  edges.foldl
    (fun acc e => fun v j => acc v j + if v = e.2 then x e.1 j else 0)
    (fun _ _ => 0)

/-- `counts.scatter_add_(0, dst..., ones)`: per-node incoming-edge count
accumulated over the edge list. -/
def scatterCounts {n : ℕ} (edges : List (Fin n × Fin n)) : Fin n → ℚ :=
  edges.foldl (fun acc e => fun v => acc v + if v = e.2 then 1 else 0)
    (fun _ => 0)

/-- `torch.cat([u, v], dim=-1)` on per-node feature vectors. -/
def vcat {a b : ℕ} (u : Fin a → ℚ) (v : Fin b → ℚ) : Fin (a + b) → ℚ :=
  fun i =>
    if h : (i : ℕ) < a then u ⟨i, h⟩
    else v ⟨(i : ℕ) - a, by have := i.isLt; omega⟩

/-- The fallback `_sage` layer, exactly as the source computes it. -/
def sageLayer {n d hd : ℕ} (linSelf linNeigh : LinLayer d hd)
    (x : Fin n → Fin d → ℚ) (edges : List (Fin n × Fin n)) :
    Fin n → Fin (hd + hd) → ℚ :=
  let agg := scatterAddNeigh x edges
  let counts := scatterCounts edges
  fun v =>
    vcat (linSelf.applyVec (x v))
      (linNeigh.applyVec (fun j => agg v j / (counts v + sageEps)))

/-- Incoming edges of node `v`. -/
def inEdges {n : ℕ} (edges : List (Fin n × Fin n)) (v : Fin n) :
    List (Fin n × Fin n) :=
  edges.filter (fun e => e.2 = v)

/-- In-degree of node `v` (edge multiplicity counted). -/
def inDegree {n : ℕ} (edges : List (Fin n × Fin n)) (v : Fin n) : ℕ :=
  (inEdges edges v).length

/-- The specification's description of the neighbor aggregation: the sum
of the in-neighbors' input vectors divided by (in-degree + epsilon). -/
def neighborMean {n d : ℕ} (x : Fin n → Fin d → ℚ)
    (edges : List (Fin n × Fin n)) (v : Fin n) : Fin d → ℚ :=
  fun j =>
    ((inEdges edges v).map (fun e => x e.1 j)).sum /
      ((inDegree edges v : ℚ) + sageEps)

/-- Concrete one-node linear layer used by the C7 witness. -/
def linOne : LinLayer 1 1 := ⟨fun _ _ => 2, fun _ => 3⟩

/-- Concrete one-node feature matrix used by the C7 witness. -/
def xOne : Fin 1 → Fin 1 → ℚ := fun _ _ => 5

/-! ## Narrative generation (explainer.py, lines 90-186)

`generate_narrative` is a pure template renderer.  Scores are modeled as
rationals; Python's `{:.4f}` fixed-point formatting is modeled with
rounding to the nearest fourth decimal (the exact tie-breaking rule does
not affect any claim).  The attribution dict is modeled as an
association list in insertion order, matching Python dict iteration. -/

/-- Zero-pad a natural number to four digits. -/
def natPad4 (k : ℕ) : String :=
  let s := toString k
  String.mk (List.replicate (4 - s.length) '0') ++ s

/-- Digits of `|q|` rounded to four decimal places, as `"i.ffff"`. -/
def fmt4core (q : ℚ) : String :=
  let n : ℕ := (round (|q| * 10000) : ℤ).toNat
  toString (n / 10000) ++ "." ++ natPad4 (n % 10000)

/-- Python `f"{q:.4f}"`. -/
def fmt4 (q : ℚ) : String :=
  (if q < 0 then "-" else "") ++ fmt4core q

/-- Python `f"{q:+.4f}"` (explicit sign). -/
def fmtPlus4 (q : ℚ) : String :=
  (if q < 0 then "-" else "+") ++ fmt4core q

/-- `fname.replace("_", " ").title()` for the lowercase ASCII feature
names: split on underscores, capitalise each word, join with spaces. -/
def readableName (fname : String) : String :=
  String.intercalate " " ((fname.splitOn "_").map String.capitalize)

/-- Risk level of explainer.py line 118:
`"HIGH" if risk_score > 0.75 else "MEDIUM" if risk_score > 0.50 else "ELEVATED"`. -/
def riskLevel (q : ℚ) : String :=
  if 3 / 4 < q then "HIGH" else if 1 / 2 < q then "MEDIUM" else "ELEVATED"

/-- Risk tier of explainer.py line 119. -/
def riskTier (q : ℚ) : String :=
  if 3 / 4 < q then "1" else if 1 / 2 < q then "2" else "3"

/-- The `pattern_descriptions` lookup with `.lower()` key and its
default. -/
def patternDescription (p : String) : String :=
  let key := p.toLower
  if key = "smurfing" then
    "structuring / smurfing — multiple transactions just below the $10,000 reporting threshold, consistent with deliberate avoidance of CTR requirements"
  else if key = "layering" then
    "multi-hop transaction layering — funds routed through a chain of intermediary entities across multiple high-risk jurisdictions to obscure beneficial ownership"
  else if key = "circular" then
    "circular fund flows — transactions forming closed loops among a small set of entities, consistent with wash transactions or value-inflation schemes"
  else if key = "mixed" then
    "multiple co-occurring suspicious transaction patterns"
  else
    "anomalous transaction behavior"

/-- Python truthiness of the optional cluster id (`None` and `""` are
falsy). -/
def clusterTruthy : Option String → Bool
  | some c => c != ""
  | none => false

/-- The cluster sentence of the executive summary (conditional
expression on the truthiness of `cluster_id`). -/
def clusterSentence (cid : Option String) (size : ℕ) : String :=
  if clusterTruthy cid then
    "This entity is a member of suspicious cluster " ++ cid.getD "" ++
      " comprising " ++ toString size ++ " interconnected entities."
  else
    "No cluster association was identified; the entity\x27s individual transaction patterns drive this alert."

/-- Stable descending sort by absolute attribution, then `take top_k`:
`sorted(shap_values.items(), key=lambda kv: abs(kv[1]), reverse=True)[:top_k]`. -/
def topDrivers (shap : List (String × ℚ)) (k : ℕ) : List (String × ℚ) :=
  (List.insertionSort (fun a b => |b.2| ≤ |a.2|) shap).take k

/-- One bullet line of the KEY RISK DRIVERS section. -/
def driverLine (p : String × ℚ) : String :=
  "    • " ++ readableName p.1 ++ ": " ++
    (if 0 < p.2 then "↑ Elevates" else "↓ Mitigates") ++
    " risk  (attribution: " ++ fmtPlus4 p.2 ++ ")"

/-- The full `generate_narrative` template (after the final `.strip()`,
which removes only the trailing newline of the f-string). -/
def generateNarrative (entityId entityType country : String)
    (riskScore : ℚ) (clusterId : Option String) (clusterSize : ℕ)
    (patternType : String) (shapValues : List (String × ℚ))
    (topK : ℕ) : String :=
  let lvl := riskLevel riskScore
  let tier := riskTier riskScore
  let patternDesc := patternDescription patternType
  let driversStr :=
    String.intercalate "\n" ((topDrivers shapValues topK).map driverLine)
  let scopeStr :=
    if clusterTruthy clusterId then "cluster members"
    else "first-degree counterparties"
  "━━━━━━━━━━━━━━━━━━━━━━━━━━━━━━━━━━━━━━━━━━━━━━━━━━" ++
  "\nSUSPICIOUS ACTIVITY REPORT — CASE SUMMARY" ++
  "\n━━━━━━━━━━━━━━━━━━━━━━━━━━━━━━━━━━━━━━━━━━━━━━━━━━" ++
  "\n\nENTITY:       " ++ entityId ++
  "\nTYPE:         " ++ entityType.toUpper ++
  "\nJURISDICTION: " ++ country ++
  "\nRISK LEVEL:   " ++ lvl ++ "  (Tier " ++ tier ++ " — Score: " ++
    fmt4 riskScore ++ ")" ++
  "\n\n── EXECUTIVE SUMMARY ──────────────────────────────" ++
  "\n\nEntity " ++ entityId ++ " (" ++ entityType ++ ", " ++ country ++
    ") has been flagged by the Graph Neural" ++
  "\nNetwork with a suspicion score of " ++ fmt4 riskScore ++
    ", placing it in the " ++ lvl ++ " risk tier." ++
  "\n" ++ clusterSentence clusterId clusterSize ++
  "\n\nThe predominant typology detected is " ++ patternDesc ++ "." ++
  "\n\n── KEY RISK DRIVERS (SHAP Attributions) ───────────" ++
  "\n\n" ++ driversStr ++
  "\n\n── RECOMMENDED ACTIONS ────────────────────────────" ++
  "\n\n  1. File a Suspicious Activity Report (SAR) with FinCEN within 30 days." ++
  "\n  2. Freeze account pending enhanced due diligence review." ++
  "\n  3. Conduct full 12-month transaction history analysis for entity and" ++
  "\n     all " ++ scopeStr ++ "." ++
  "\n  4. Escalate to Compliance Officer (Level 2) and Legal Counsel." ++
  "\n  5. Preserve all records per BSA record-retention requirements." ++
  "\n\n── REGULATORY REFERENCES ──────────────────────────" ++
  "\n\n  31 U.S.C. § 5318(g)  — SAR Filing Obligation" ++
  "\n  31 CFR § 1020.320    — Reports of Suspicious Transactions" ++
  "\n  FinCEN Advisory FIN-2014-A007 — Layering Typologies" ++
  "\n\n━━━━━━━━━━━━━━━━━━━━━━━━━━━━━━━━━━━━━━━━━━━━━━━━━━" ++
  "\nGenerated by AML GNN System v1.0 | Explainability: XGBoost-SHAP Surrogate"

/-! ## Pipeline persistence of a training run (pipeline_service.py, 81-204)

`run_train` reads the stored entities/transactions, trains, writes risk
scores back, deletes all prior alerts and clusters, recreates clusters
from cluster labels, and creates one alert per entity with risk score
not below 0.50.  The database is modeled as an explicit state record;
the training output (`node_scores`, `node_shap`) is abstracted as
functions of the entity id.  Raising before any commit is modeled by
returning an error without producing a successor state. -/

/-- A stored entity row (fields used by the pipeline). -/
structure EntityRow (α : Type) where
  id : α
  entityType : String
  country : String
  isSuspicious : Bool
  clusterId : Option String
  riskScore : ℚ
deriving DecidableEq

/-- A stored alert row. -/
structure AlertRow (α : Type) where
  entityId : α
  clusterId : Option String
  score : ℚ
  narrative : String
  status : String

/-- A stored cluster row. -/
structure ClusterRow (α : Type) where
  id : String
  memberIds : List α
  size : ℕ
  suspicionScore : ℚ
  patternType : String

/-- The database state visible to `run_train`. -/
structure DBState (α : Type) where
  entities : List (EntityRow α)
  alerts : List (AlertRow α)
  clusters : List (ClusterRow α)

/-- Error outcome of the pipeline: the caller-correctable no-data error
(`ValueError("No entities in database. Call POST /generate first.")`)
versus any unexpected internal failure. -/
inductive PipeError where
  | noData : PipeError
  | internal : String → PipeError
deriving DecidableEq

/-- Substring test (`sub in s`), via `splitOn`. -/
def containsSub (s sub : String) : Bool :=
  (s.splitOn sub).length ≥ 2

/-- The `_pattern` helper of `run_train`. -/
def patternOf (cid : String) : String :=
  if containsSub cid "SMURF" then "smurfing"
  else if containsSub cid "LAYER" then "layering"
  else if containsSub cid "CIRC" then "circular"
  else "mixed"

/-- Maximum of a nonempty rational list (`max(scores)`), 0 for `[]`. -/
def listMaxQ : List ℚ → ℚ
  | [] => 0
  | a :: r => r.foldl max a

/-- Members of the cluster map at key `cid or ""`: entities whose
truthy `cluster_id` equals `cid` (the empty key is never in the map). -/
def membersOf {α : Type} (ents : List (EntityRow α)) (cid : String) :
    List (EntityRow α) :=
  if cid = "" then []
  else ents.filter (fun e => e.clusterId = some cid)

/-- The alert threshold of `run_train` (`threshold = 0.50`). -/
def alertThreshold : ℚ := 1 / 2

/-- Entities after `db_e.risk_score = node_scores.get(db_e.id, 0.0)`. -/
def updatedEntities {α : Type} (scores : α → ℚ)
    (ents : List (EntityRow α)) : List (EntityRow α) :=
  ents.map (fun e => { e with riskScore := scores e.id })

/-- Truthy cluster ids occurring among the entities (keys of
`cluster_map`; key order is not semantically relevant). -/
def clusterKeys {α : Type} (ents : List (EntityRow α)) : List String :=
  ((ents.filterMap (fun e => e.clusterId)).filter (fun c => c != "")).dedup

/-- The cluster rows recreated by `run_train`. -/
def clustersFor {α : Type} (scores : α → ℚ)
    (ents : List (EntityRow α)) : List (ClusterRow α) :=
  (clusterKeys ents).map (fun cid =>
    let members := membersOf ents cid
    { id := cid
      memberIds := members.map (fun m => m.id)
      size := members.length
      suspicionScore := listMaxQ (members.map (fun m => scores m.id))
      patternType := patternOf cid })

/-- The alert row built for one stored entity above the threshold:
entity id, cluster id, score, generated narrative (cluster size from
`cluster_map.get(cid or "", [])`, pattern from `_pattern(cid) if cid
else "mixed"`), and status `"open"`. -/
def alertRecord {α : Type} [ToString α] (scores : α → ℚ)
    (shap : α → List (String × ℚ)) (ents : List (EntityRow α))
    (e : EntityRow α) : AlertRow α :=
  { entityId := e.id
    clusterId := e.clusterId
    score := scores e.id
    narrative :=
      generateNarrative (toString e.id) e.entityType e.country
        (scores e.id) e.clusterId
        ((membersOf ents (e.clusterId.getD "")).length)
        (if clusterTruthy e.clusterId then patternOf (e.clusterId.getD "")
          else "mixed")
        (shap e.id) 4
    status := "open" }

/-- The alert produced for one stored entity, `none` when its risk score
is below the threshold (`if score < threshold: continue`). -/
def alertOf {α : Type} [ToString α] (scores : α → ℚ)
    (shap : α → List (String × ℚ)) (ents : List (EntityRow α))
    (e : EntityRow α) : Option (AlertRow α) :=
  if scores e.id < alertThreshold then none
  else some (alertRecord scores shap ents e)

/-- The alerts created by one training run over an iteration list
(separated from the closed-over entity list for induction). -/
def alertsOver {α : Type} [ToString α] (scores : α → ℚ)
    (shap : α → List (String × ℚ)) (ents iter : List (EntityRow α)) :
    List (AlertRow α) :=
  iter.filterMap (alertOf scores shap ents)

/-- All alerts created by one training run. -/
def alertsFor {α : Type} [ToString α] (scores : α → ℚ)
    (shap : α → List (String × ℚ)) (ents : List (EntityRow α)) :
    List (AlertRow α) :=
  alertsOver scores shap ents ents

/-- The `run_train` state transition: fail fast on an empty entity
table, otherwise write scores back, discard all prior alerts and
clusters, and recreate them from this run alone.  Returns the successor
state and `alerts_created`. -/
def runTrainDB {α : Type} [ToString α] (scores : α → ℚ)
    (shap : α → List (String × ℚ)) (st : DBState α) :
    Except PipeError (DBState α × ℕ) :=
  match st.entities with
  | [] => Except.error PipeError.noData
  | _ =>
      let ents := updatedEntities scores st.entities
      let alerts := alertsFor scores shap ents
      Except.ok
        ({ entities := ents, alerts := alerts,
           clusters := clustersFor scores ents }, alerts.length)

/-- Concrete entity rows and score maps used by witnesses and
counterexamples. -/
def entA : EntityRow ℕ :=
  ⟨0, "mule", "PA", true, some "CLU_CIRC_0001", 0⟩

/-- Second concrete entity row (distinct id, below threshold later). -/
def entB : EntityRow ℕ :=
  ⟨1, "individual", "US", false, none, 0⟩

/-- Concrete score map sending entity 0 to 0.6 and the rest to 0.2. -/
def scoresAB : ℕ → ℚ := fun i => if i = 0 then 3 / 5 else 1 / 5

/-- Concrete score map that is exactly the 0.50 threshold everywhere. -/
def scoresHalf : ℕ → ℚ := fun _ => 1 / 2

/-- Concrete score map equal to 0.8 everywhere. -/
def scoresHigh : ℕ → ℚ := fun _ => 4 / 5

/-- Empty attribution map used by witnesses. -/
def shapNone : ℕ → List (String × ℚ) := fun _ => []

/-! ## Circular-pattern clusters (data_generator.py, 319-345 and 144-177)

`_generate_circular` samples a duplicate-free cycle of 3-7 entities and
emits one transaction `cycle[i] → cycle[(i+1) % len(cycle)]` per
position.  `_generate_dataset` then assigns the cluster id to every
member — overwriting any label a previous cluster gave the entity.  The
clusters are modeled by their member cycles in generation order; the
label of the `k`-th generated circular cluster is `k`, and transactions
are modeled by their (source, destination) structure. -/

/-- The (src, dst) pairs of the transactions `_generate_circular` emits
for a member cycle. -/
def circularTxs {α : Type} [Inhabited α] (cycle : List α) : List (α × α) :=
  (List.range cycle.length).map (fun i =>
    (cycle.getD i default, cycle.getD ((i + 1) % cycle.length) default))

/-- Sequential label assignment: each cluster in order overwrites the
label of each of its members (`entity_map[mid].cluster_id = cluster_id`). -/
def finalLabelAux {α : Type} [DecidableEq α] (clusters : List (List α))
    (e : α) (idx : ℕ) (acc : Option ℕ) : Option ℕ :=
  match clusters with
  | [] => acc
  | c :: rest =>
      finalLabelAux rest e (idx + 1) (if e ∈ c then some idx else acc)

/-- The cluster label an entity carries when the run ends. -/
def finalLabel {α : Type} [DecidableEq α] (clusters : List (List α))
    (e : α) : Option ℕ :=
  finalLabelAux clusters e 0 none

/-- The entities that end the run carrying label `k`. -/
def membersWithLabel {α : Type} [DecidableEq α]
    (clusters : List (List α)) (k : ℕ) : List α :=
  (clusters.flatten.dedup).filter (fun e => finalLabel clusters e = some k)

/-- Restriction of a transaction list to the pairs with both endpoints
in `S`. -/
def restrictTxs {α : Type} [DecidableEq α] (txs : List (α × α))
    (S : List α) : List (α × α) :=
  txs.filter (fun p => p.1 ∈ S ∧ p.2 ∈ S)

/-- A transaction list forms a closed directed cycle visiting each
member of `S` exactly once: it is nonempty, its sources and its
destinations are each a permutation of `S`, and each transaction's
destination is the next transaction's source (cyclically). -/
def IsClosedCycleOn {α : Type} [DecidableEq α] [Inhabited α]
    (S : List α) (txs : List (α × α)) : Prop :=
  txs ≠ [] ∧ (txs.map Prod.fst).Perm S ∧ (txs.map Prod.snd).Perm S ∧
  ∀ i < txs.length,
    (txs.getD i (default, default)).2
      = (txs.getD ((i + 1) % txs.length) (default, default)).1

instance {α : Type} [DecidableEq α] [Inhabited α] (S : List α)
    (txs : List (α × α)) : Decidable (IsClosedCycleOn S txs) := by
  unfold IsClosedCycleOn
  infer_instance

/-! ## Feature extraction (data_generator.py, lines 352-483)

`compute_node_features` aggregates, per entity, outgoing/incoming
amounts, countries, channels, timestamps, counterparties and risk-flag
counts, computes centralities on the NetworkX digraph (exact when the
graph has at most 8000 nodes, else degree divided by the maximum
degree — an integer division that raises `ZeroDivisionError` when the
maximum degree is zero, modeled as `none`), builds an 18-column row per
entity and replaces NaN with 0.0, +Inf with 10.0 and -Inf with 0.0 via
`np.nan_to_num`.  Monetary amounts and timestamps are exact rationals;
values that flow through `np.log1p` are wrapped in an extended-float
type `EFloat` so that the NaN/±Inf behaviour of `log1p` on arguments
at or below -1 and the final sanitisation are modeled faithfully.  The
in/out-ratio denominator `total_sent + 1e-9` is a Python float division
that raises `ZeroDivisionError` when the denominator is exactly zero;
this guard is modeled by `divOk` (also `none` on failure).  The
`EntityRecord` / `TransactionRecord` fields the function reads are
modeled, with the entity id type abstract. -/

structure EntityRec (α : Type) where
  id : α
  entityType : String
  country : String
  isSuspicious : Bool
  clusterId : Option String
deriving DecidableEq

structure TxRec (α : Type) where
  src : α
  dst : α
  amount : ℚ
  timestamp : ℚ
  channel : String
  country : String
  riskFlags : List String
  isSuspicious : Bool
deriving DecidableEq

inductive EFloat where
  | fin : ℝ → EFloat
  | pinf : EFloat
  | ninf : EFloat
  | nan : EFloat

noncomputable def elog1p : EFloat → EFloat
  | EFloat.fin q =>
      if -1 < q then EFloat.fin (Real.log (1 + q))
      else if q = -1 then EFloat.ninf else EFloat.nan
  | EFloat.pinf => EFloat.pinf
  | EFloat.ninf => EFloat.nan
  | EFloat.nan => EFloat.nan

def esanitize : EFloat → EFloat
  | EFloat.fin q => EFloat.fin q
  | EFloat.pinf => EFloat.fin 10
  | EFloat.ninf => EFloat.fin 0
  | EFloat.nan => EFloat.fin 0

def EFloat.IsFinite : EFloat → Prop
  | EFloat.fin _ => True
  | _ => False

def highRiskCountries : List String :=
  ["PA", "VG", "KY", "MH", "BZ", "WS", "SC", "AE", "LI"]

def etypeEnc (t : String) : ℕ :=
  if t = "individual" then 0
  else if t = "business" then 1
  else if t = "mule" then 2
  else if t = "shell" then 3
  else 0

def outTxs {α : Type} [DecidableEq α] (ts : List (TxRec α)) (eid : α) :
    List (TxRec α) :=
  ts.filter (fun t => t.src = eid)

def inTxs {α : Type} [DecidableEq α] (ts : List (TxRec α)) (eid : α) :
    List (TxRec α) :=
  ts.filter (fun t => t.dst = eid)

def outAmounts {α : Type} [DecidableEq α] (ts : List (TxRec α)) (eid : α) :
    List ℚ :=
  (outTxs ts eid).map (fun t => t.amount)

def inAmounts {α : Type} [DecidableEq α] (ts : List (TxRec α)) (eid : α) :
    List ℚ :=
  (inTxs ts eid).map (fun t => t.amount)

def meanAmt (l : List ℚ) : ℚ := if l = [] then 0 else l.sum / l.length

def maxAmt : List ℚ → ℚ
  | [] => 0
  | a :: r => r.foldl max a

def geoDiversity {α : Type} [DecidableEq α] (ts : List (TxRec α)) (eid : α) : ℕ :=
  (((outTxs ts eid).map (fun t => t.country)
    ++ (inTxs ts eid).map (fun t => t.country)).dedup).length

def channelDiversity {α : Type} [DecidableEq α] (ts : List (TxRec α)) (eid : α) : ℕ :=
  (((outTxs ts eid).map (fun t => t.channel)
    ++ (inTxs ts eid).map (fun t => t.channel)).dedup).length

def counterpartsCount {α : Type} [DecidableEq α] (ts : List (TxRec α)) (eid : α) : ℕ :=
  (((outTxs ts eid).map (fun t => t.dst)
    ++ (inTxs ts eid).map (fun t => t.src)).dedup).length

def flagCount {α : Type} [DecidableEq α] (ts : List (TxRec α)) (eid : α) : ℕ :=
  ((outTxs ts eid ++ inTxs ts eid).map (fun t => t.riskFlags.length)).sum

def tsListOf {α : Type} [DecidableEq α] (ts : List (TxRec α)) (eid : α) : List ℚ :=
  (outTxs ts eid).map (fun t => t.timestamp)
    ++ (inTxs ts eid).map (fun t => t.timestamp)

def sortedTs {α : Type} [DecidableEq α] (ts : List (TxRec α)) (eid : α) : List ℚ :=
  List.insertionSort (fun a b => a ≤ b) (tsListOf ts eid)

def secsOf {α : Type} [DecidableEq α] (ts : List (TxRec α)) (eid : α) : List ℚ :=
  (sortedTs ts eid).map (fun t => t - (sortedTs ts eid).headD 0)

def deltasOf {α : Type} [DecidableEq α] (ts : List (TxRec α)) (eid : α) : List ℚ :=
  List.zipWith (fun a b => b - a) (secsOf ts eid) (secsOf ts eid).tail

def meanDelta {α : Type} [DecidableEq α] (ts : List (TxRec α)) (eid : α) : ℚ :=
  if deltasOf ts eid = [] then 0
  else (deltasOf ts eid).sum / (deltasOf ts eid).length

def varDelta {α : Type} [DecidableEq α] (ts : List (TxRec α)) (eid : α) : ℚ :=
  if deltasOf ts eid = [] then 0
  else ((deltasOf ts eid).map (fun d => (d - meanDelta ts eid) ^ 2)).sum
    / (deltasOf ts eid).length

noncomputable def stdDelta {α : Type} [DecidableEq α]
    (ts : List (TxRec α)) (eid : α) : ℝ :=
  Real.sqrt ((varDelta ts eid : ℚ) : ℝ)

def epsQ : ℚ := 1 / 1000000000

noncomputable def burstinessOf {α : Type} [DecidableEq α]
    (ts : List (TxRec α)) (eid : α) : ℝ :=
  if 3 ≤ (tsListOf ts eid).length then
    stdDelta ts eid / ((meanDelta ts eid + epsQ : ℚ) : ℝ)
  else 0

def nodesList {α : Type} [DecidableEq α] (es : List (EntityRec α))
    (ts : List (TxRec α)) : List α :=
  (es.map (fun e => e.id) ++ ts.flatMap (fun t => [t.src, t.dst])).dedup

def nodeCount {α : Type} [DecidableEq α] (es : List (EntityRec α))
    (ts : List (TxRec α)) : ℕ :=
  (nodesList es ts).length

def edgePairs {α : Type} [DecidableEq α] (ts : List (TxRec α)) :
    List (α × α) :=
  (ts.map (fun t => (t.src, t.dst))).dedup

def outDegOf {α : Type} [DecidableEq α] (ts : List (TxRec α)) (v : α) : ℕ :=
  ((edgePairs ts).filter (fun p => p.1 = v)).length

def inDegOf {α : Type} [DecidableEq α] (ts : List (TxRec α)) (v : α) : ℕ :=
  ((edgePairs ts).filter (fun p => p.2 = v)).length

def degOf {α : Type} [DecidableEq α] (ts : List (TxRec α)) (v : α) : ℕ :=
  outDegOf ts v + inDegOf ts v

def maxOf (l : List ℕ) (dflt : ℕ) : ℕ :=
  match l with
  | [] => dflt
  | a :: r => r.foldl max a

def maxDeg {α : Type} [DecidableEq α] (es : List (EntityRec α))
    (ts : List (TxRec α)) : ℕ :=
  maxOf ((nodesList es ts).map (degOf ts)) 1

def maxInDeg {α : Type} [DecidableEq α] (es : List (EntityRec α))
    (ts : List (TxRec α)) : ℕ :=
  maxOf ((nodesList es ts).map (inDegOf ts)) 1

def centralityOk {α : Type} [DecidableEq α] (es : List (EntityRec α))
    (ts : List (TxRec α)) : Bool :=
  if nodeCount es ts ≤ 8000 then true
  else if maxDeg es ts = 0 then false
  else if maxInDeg es ts = 0 then false
  else true

def divOk {α : Type} [DecidableEq α] (es : List (EntityRec α))
    (ts : List (TxRec α)) : Bool :=
  es.all (fun e => (outAmounts ts e.id).sum + epsQ ≠ 0)

noncomputable def degCent {α : Type} [DecidableEq α]
    (es : List (EntityRec α)) (ts : List (TxRec α)) (v : α) : ℝ :=
  if nodeCount es ts ≤ 8000 then
    (if nodeCount es ts ≤ 1 then 1
      else (degOf ts v : ℝ) / ((nodeCount es ts : ℝ) - 1))
  else (degOf ts v : ℝ) / (maxDeg es ts : ℝ)

noncomputable def inDegCent {α : Type} [DecidableEq α]
    (es : List (EntityRec α)) (ts : List (TxRec α)) (v : α) : ℝ :=
  if nodeCount es ts ≤ 8000 then
    (if nodeCount es ts ≤ 1 then 1
      else (inDegOf ts v : ℝ) / ((nodeCount es ts : ℝ) - 1))
  else (inDegOf ts v : ℝ) / (maxInDeg es ts : ℝ)

noncomputable def featureRow {α : Type} [DecidableEq α]
    (es : List (EntityRec α)) (ts : List (TxRec α)) (e : EntityRec α) :
    List EFloat :=
  let oa := outAmounts ts e.id
  let ia := inAmounts ts e.id
  [ elog1p (EFloat.fin ((oa.sum : ℚ) : ℝ)),
    elog1p (EFloat.fin ((ia.sum : ℚ) : ℝ)),
    elog1p (EFloat.fin (oa.length : ℝ)),
    elog1p (EFloat.fin (ia.length : ℝ)),
    elog1p (EFloat.fin ((meanAmt oa : ℚ) : ℝ)),
    elog1p (EFloat.fin ((meanAmt ia : ℚ) : ℝ)),
    elog1p (EFloat.fin ((maxAmt oa : ℚ) : ℝ)),
    elog1p (EFloat.fin ((maxAmt ia : ℚ) : ℝ)),
    elog1p (EFloat.fin ((ia.sum / (oa.sum + epsQ) : ℚ) : ℝ)),
    EFloat.fin (geoDiversity ts e.id : ℝ),
    EFloat.fin (channelDiversity ts e.id : ℝ),
    elog1p (EFloat.fin (counterpartsCount ts e.id : ℝ)),
    EFloat.fin (min (burstinessOf ts e.id) 10),
    elog1p (EFloat.fin (flagCount ts e.id : ℝ)),
    EFloat.fin (degCent es ts e.id),
    EFloat.fin (inDegCent es ts e.id),
    EFloat.fin (etypeEnc e.entityType : ℝ),
    EFloat.fin (if e.country ∈ highRiskCountries then 1 else 0) ]

noncomputable def buildMatrix {α : Type} [DecidableEq α]
    (es : List (EntityRec α)) (ts : List (TxRec α)) : List (List EFloat) :=
  es.map (fun e => (featureRow es ts e).map esanitize)

def featureNames : List String :=
  ["total_sent", "total_received", "num_sent", "num_received",
   "avg_sent", "avg_received", "max_sent", "max_received",
   "in_out_ratio", "geo_diversity", "channel_diversity",
   "unique_counterparties", "burstiness", "risk_flag_count",
   "degree_centrality", "in_degree_centrality",
   "entity_type_enc", "country_risk"]

noncomputable def computeNodeFeatures {α : Type} [DecidableEq α]
    (es : List (EntityRec α)) (ts : List (TxRec α)) :
    Option (List (List EFloat) × List α × List String) :=
  if centralityOk es ts && divOk es ts then
    some (buildMatrix es ts, es.map (fun e => e.id), featureNames)
  else none

def manyEntities : List (EntityRec ℕ) :=
  (List.range 8001).map (fun i => ⟨i, "individual", "US", false, none⟩)

/-- Concrete single-entity list used by the feature witnesses. -/
def entFeat : List (EntityRec ℕ) := [⟨0, "mule", "PA", true, none⟩]

/-- Concrete single-entity list for the negative-amount counterexample. -/
def entNeg : List (EntityRec ℕ) := [⟨0, "individual", "US", false, none⟩]

/-- A single self-loop transaction with amount −0.5. -/
def txNeg : List (TxRec ℕ) := [⟨0, 0, -(1/2), 0, "wire", "US", [], true⟩]

end AML

namespace AML

/-! ## Theorems for the split-size claim -/

/-- Claim C5 (counterexample): the claim asserts proportions 70/15/15 of
the original index set.  For 1001 entities the trainer's two successive
85/15 splits give sizes (train, val, test) = (722, 128, 151); in
particular the validation part is 128 indices, far from 15 percent of
the original set (which would be about 150), refuting the stated
70/15/15 proportions. -/
theorem c5_split_counterexample :
    trainSize 1001 = 722 ∧ valSize 1001 = 128 ∧ testSize 1001 = 151 ∧
      ¬ (valSize 1001 = 150) := by
  refine ⟨by decide, by decide, by decide, by decide⟩

/-- Claim C5 (amended): the trainer's stratified partition of `n` entity
indices, produced by two successive sklearn splits with
`test_size=0.15`, has sizes `test = ⌈0.15·n⌉`,
`val = ⌈0.15·(n − test)⌉`, `train = n − test − val`; the three parts
partition the index set, the test part is 15 percent of the original
(up to rounding) and the validation part is 12.75 percent of the
original (up to rounding), i.e. the proportions are 72.25/12.75/15,
not 70/15/15. -/
theorem c5_split_sizes (n : ℕ) :
    trainSize n + valSize n + testSize n = n ∧
    testSize n = (3 * n + 19) / 20 ∧
    valSize n = (3 * (n - testSize n) + 19) / 20 ∧
    (3 * n ≤ 20 * testSize n ∧ 20 * testSize n < 3 * n + 20) ∧
    (51 * n ≤ 400 * valSize n + 460 ∧ 400 * valSize n < 51 * n + 400) := by
  unfold trainSize valSize testSize holdoutSize
  omega

/-- Witness for C5 at `n = 1001`: the partition equation and the
proportion bounds hold at a concrete size. -/
theorem c5_split_sizes_witness :
    trainSize 1001 + valSize 1001 + testSize 1001 = 1001 ∧
    testSize 1001 = (3 * 1001 + 19) / 20 ∧
    valSize 1001 = (3 * (1001 - testSize 1001) + 19) / 20 ∧
    (3 * 1001 ≤ 20 * testSize 1001 ∧ 20 * testSize 1001 < 3 * 1001 + 20) ∧
    (51 * 1001 ≤ 400 * valSize 1001 + 460 ∧
      400 * valSize 1001 < 51 * 1001 + 400) :=
  c5_split_sizes 1001

/-! ## Theorems for the validation-F1 claim -/

/-- Claim C1: the training loop's validation F1 does not compare each
validation entity's prediction with that same entity's label.  With
labels `[0,1,0,0]`, probabilities `[0, 0.9, 0, 0.1]` and the shuffled
validation index list `[3, 1]`, the code pairs the mask-ordered
predictions `[1, 0]` (positions 1 then 3) with the labels in index-list
order `[label 3, label 1] = [0, 1]`, yielding F1 = 0, whereas the
per-entity aligned pairing yields F1 = 1.  The code therefore diverges
from the claim at this input. -/
theorem c1_valf1_misaligned :
    codeValF1 [0, 1, 0, 0] [0, 9/10, 0, 1/10] [3, 1] = 0 ∧
      alignedValF1 [0, 1, 0, 0] [0, 9/10, 0, 1/10] [3, 1] = 1 := by
  constructor
  · norm_num [codeValF1, f1Score, tp, fp, fn, pairCount, maskSelect,
      fancySelectN, fancySelectQ, predAt, List.range_succ]
  · norm_num [alignedValF1, f1Score, tp, fp, fn, pairCount, maskSelect,
      fancySelectN, fancySelectQ, predAt, List.range_succ]

/-! ## Theorems for the fallback GraphSAGE layer claim -/

/-- The scatter-add fold equals a per-node filtered sum (characterised
with an arbitrary accumulator for the induction). -/
theorem scatterAddNeigh_fold_spec {n d : ℕ} (x : Fin n → Fin d → ℚ)
    (edges : List (Fin n × Fin n)) (acc : Fin n → Fin d → ℚ)
    (v : Fin n) (j : Fin d) :
    (edges.foldl
      (fun acc e => fun w k => acc w k + if w = e.2 then x e.1 k else 0)
      acc) v j
      = acc v j + ((inEdges edges v).map (fun e => x e.1 j)).sum := by
  induction edges generalizing acc with
  | nil => simp [inEdges]
  | cons e es ih =>
      rw [List.foldl_cons, ih]
      by_cases he : e.2 = v
      · simp [inEdges, List.filter_cons, he]
        ring
      · have hv : ¬ v = e.2 := fun hvv => he hvv.symm
        simp [inEdges, List.filter_cons, he, hv]

/-- The count fold equals the in-degree (characterised with an arbitrary
accumulator for the induction). -/
theorem scatterCounts_fold_spec {n : ℕ} (edges : List (Fin n × Fin n))
    (acc : Fin n → ℚ) (v : Fin n) :
    (edges.foldl (fun acc e => fun w => acc w + if w = e.2 then 1 else 0)
      acc) v = acc v + (inDegree edges v : ℚ) := by
  induction edges generalizing acc with
  | nil => simp [inDegree, inEdges]
  | cons e es ih =>
      rw [List.foldl_cons, ih]
      by_cases he : e.2 = v
      · simp [inDegree, inEdges, List.filter_cons, he]
        ring
      · have hv : ¬ v = e.2 := fun hvv => he hvv.symm
        simp [inDegree, inEdges, List.filter_cons, he, hv]

/-- Claim C7: in the fallback GraphSAGE layer, every node's output is
the concatenation of (a) the self linear transform of its own input row
and (b) the neighbor linear transform of the sum of its in-neighbors'
input rows divided by (in-degree + 1e-8); moreover a node with zero
in-degree aggregates the zero vector.  Holds for every feature matrix
and edge list, including the empty edge list. -/
theorem c7_sage_layer {n d hd : ℕ} (linSelf linNeigh : LinLayer d hd)
    (x : Fin n → Fin d → ℚ) (edges : List (Fin n × Fin n))
    (v : Fin n) (i : Fin (hd + hd)) :
    sageLayer linSelf linNeigh x edges v i
      = vcat (linSelf.applyVec (x v))
          (linNeigh.applyVec (neighborMean x edges v)) i
    ∧ (inDegree edges v = 0 → ∀ j, neighborMean x edges v j = 0) := by
  constructor
  · have hagg : ∀ j, scatterAddNeigh x edges v j
        = ((inEdges edges v).map (fun e => x e.1 j)).sum := by
      intro j
      have := scatterAddNeigh_fold_spec x edges (fun _ _ => 0) v j
      simpa [scatterAddNeigh] using this
    have hcnt : scatterCounts edges v = (inDegree edges v : ℚ) := by
      have := scatterCounts_fold_spec edges (fun _ => 0) v
      simpa [scatterCounts] using this
    have hfun :
        (fun j => scatterAddNeigh x edges v j / (scatterCounts edges v + sageEps))
          = neighborMean x edges v := by
      funext j
      rw [hagg j, hcnt]
      rfl
    simp only [sageLayer]
    rw [hfun]
  · intro h0 j
    have : inEdges edges v = [] := by
      have := List.length_eq_zero.mp h0
      simpa [inDegree] using this
    simp [neighborMean, this]

/-- Witness for C7 at a concrete one-node instance with an empty edge
list: the layer output equals the concatenated closed form, and the
zero-in-degree node aggregates the zero vector. -/
theorem c7_sage_layer_witness :
    (sageLayer linOne linOne xOne ([] : List (Fin 1 × Fin 1)) 0 0
        = vcat (linOne.applyVec (xOne 0))
            (linOne.applyVec (neighborMean xOne [] 0)) 0)
    ∧ neighborMean xOne ([] : List (Fin 1 × Fin 1)) 0 0 = 0 :=
  ⟨(c7_sage_layer linOne linOne xOne [] 0 0).1,
    (c7_sage_layer linOne linOne xOne [] 0 0).2 rfl 0⟩

/-! ## Theorems for the narrative claims -/

/-- Claim C9: `generate_narrative` is deterministic — two calls with
identical entity id, entity type, country, risk score, cluster id,
cluster size, pattern type, attribution map and `top_k` return
byte-identical narrative strings. -/
theorem c9_narrative_deterministic
    (eid₁ ety₁ cty₁ : String) (rs₁ : ℚ) (cid₁ : Option String) (cs₁ : ℕ)
    (pt₁ : String) (sv₁ : List (String × ℚ)) (k₁ : ℕ)
    (eid₂ ety₂ cty₂ : String) (rs₂ : ℚ) (cid₂ : Option String) (cs₂ : ℕ)
    (pt₂ : String) (sv₂ : List (String × ℚ)) (k₂ : ℕ)
    (h1 : eid₁ = eid₂) (h2 : ety₁ = ety₂) (h3 : cty₁ = cty₂)
    (h4 : rs₁ = rs₂) (h5 : cid₁ = cid₂) (h6 : cs₁ = cs₂)
    (h7 : pt₁ = pt₂) (h8 : sv₁ = sv₂) (h9 : k₁ = k₂) :
    generateNarrative eid₁ ety₁ cty₁ rs₁ cid₁ cs₁ pt₁ sv₁ k₁
      = generateNarrative eid₂ ety₂ cty₂ rs₂ cid₂ cs₂ pt₂ sv₂ k₂ := by
  subst h1 h2 h3 h4 h5 h6 h7 h8 h9
  rfl

/-- Witness for C9 at concrete arguments passed twice. -/
theorem c9_narrative_deterministic_witness :
    ("E1" : String) = "E1" ∧ ("mule" : String) = "mule" ∧
    ("PA" : String) = "PA" ∧ (4 / 5 : ℚ) = 4 / 5 ∧
    (some "CLU_CIRC_0001" : Option String) = some "CLU_CIRC_0001" ∧
    (3 : ℕ) = 3 ∧ ("circular" : String) = "circular" ∧
    ([("total_sent", (1 / 5 : ℚ))]) = [("total_sent", (1 / 5 : ℚ))] ∧
    (4 : ℕ) = 4 ∧
    generateNarrative "E1" "mule" "PA" (4 / 5) (some "CLU_CIRC_0001") 3
        "circular" [("total_sent", 1 / 5)] 4
      = generateNarrative "E1" "mule" "PA" (4 / 5) (some "CLU_CIRC_0001")
          3 "circular" [("total_sent", 1 / 5)] 4 :=
  ⟨rfl, rfl, rfl, rfl, rfl, rfl, rfl, rfl, rfl,
    c9_narrative_deterministic "E1" "mule" "PA" (4 / 5)
      (some "CLU_CIRC_0001") 3 "circular" [("total_sent", 1 / 5)] 4
      "E1" "mule" "PA" (4 / 5) (some "CLU_CIRC_0001") 3 "circular"
      [("total_sent", 1 / 5)] 4 rfl rfl rfl rfl rfl rfl rfl rfl rfl⟩

/-- Claim C4 (counterexample): at risk score exactly 0.50 the pipeline
creates an alert (the threshold test is `score < 0.50 → skip`), yet the
narrative risk level is `"ELEVATED"` because the tier tests are strict
(`> 0.75`, `> 0.50`).  So the `"ELEVATED"` branch is reachable for an
alerted entity, refuting the claim. -/
theorem c4_threshold_counterexample :
    (∃ a ∈ alertsFor scoresHalf shapNone [entA],
        a.score = 1 / 2 ∧ riskLevel a.score = "ELEVATED") ∧
    riskLevel (1 / 2) ≠ "HIGH" ∧ riskLevel (1 / 2) ≠ "MEDIUM" := by
  have hsc : ¬ scoresHalf entA.id < alertThreshold := by
    norm_num [scoresHalf, alertThreshold]
  have helev : riskLevel (1 / 2) = "ELEVATED" := by
    norm_num [riskLevel]
  refine ⟨⟨alertRecord scoresHalf shapNone [entA] entA,
      List.mem_filterMap.mpr ⟨entA, List.mem_singleton.mpr rfl,
        if_neg hsc⟩, rfl, helev⟩, ?_, ?_⟩
  · rw [helev]
    decide
  · rw [helev]
    decide

/-- Claim C4 (amended): every entity with risk score strictly greater
than 0.50 produces an alert whose narrative risk level is `"HIGH"` or
`"MEDIUM"`; only at a score of exactly 0.50 is an alert produced in the
`"ELEVATED"` tier. -/
theorem c4_alert_level {α : Type} [ToString α] (scores : α → ℚ)
    (shap : α → List (String × ℚ)) (ents : List (EntityRow α))
    (e : EntityRow α) (he : e ∈ ents) (h : 1 / 2 < scores e.id) :
    (∃ a ∈ alertsFor scores shap ents,
        a.entityId = e.id ∧ a.score = scores e.id) ∧
    (riskLevel (scores e.id) = "HIGH" ∨
      riskLevel (scores e.id) = "MEDIUM") := by
  constructor
  · have hsc : ¬ scores e.id < alertThreshold := by
      rw [alertThreshold]
      exact not_lt.mpr (le_of_lt h)
    exact ⟨alertRecord scores shap ents e,
      List.mem_filterMap.mpr ⟨e, he, if_neg hsc⟩, rfl, rfl⟩
  · by_cases h34 : 3 / 4 < scores e.id
    · left
      rw [riskLevel, if_pos h34]
    · right
      rw [riskLevel, if_neg h34, if_pos h]

/-- Witness for the amended C4 at a concrete entity with score 0.8. -/
theorem c4_alert_level_witness :
    entA ∈ [entA] ∧ (1 / 2 : ℚ) < scoresHigh entA.id ∧
    ((∃ a ∈ alertsFor scoresHigh shapNone [entA],
        a.entityId = entA.id ∧ a.score = scoresHigh entA.id) ∧
      (riskLevel (scoresHigh entA.id) = "HIGH" ∨
        riskLevel (scoresHigh entA.id) = "MEDIUM")) :=
  ⟨List.mem_singleton.mpr rfl, by norm_num [scoresHigh],
    c4_alert_level scoresHigh shapNone [entA] entA
      (List.mem_singleton.mpr rfl) (by norm_num [scoresHigh])⟩

/-! ## Theorems for the pipeline claims -/

/-- Projection of the built alert row: its entity id. -/
theorem alertRecord_entityId {α : Type} [ToString α] (scores : α → ℚ)
    (shap : α → List (String × ℚ)) (ents : List (EntityRow α))
    (e : EntityRow α) :
    (alertRecord scores shap ents e).entityId = e.id := rfl

/-- Projection of the built alert row: its score. -/
theorem alertRecord_score {α : Type} [ToString α] (scores : α → ℚ)
    (shap : α → List (String × ℚ)) (ents : List (EntityRow α))
    (e : EntityRow α) :
    (alertRecord scores shap ents e).score = scores e.id := rfl

/-- Alert-count characterisation: the number of alerts whose entity id
is `x` equals 0 when `x` scores below the threshold and otherwise the
number of occurrences of `x` among the iterated entities' ids. -/
theorem alertsOver_count {α : Type} [ToString α] [DecidableEq α]
    (scores : α → ℚ) (shap : α → List (String × ℚ))
    (all iter : List (EntityRow α)) (x : α) :
    ((alertsOver scores shap all iter).filter
        (fun a => a.entityId = x)).length
      = if scores x < alertThreshold then 0
        else (iter.map (fun e => e.id)).count x := by
  induction iter with
  | nil => simp [alertsOver]
  | cons e t ih =>
      by_cases hsc : scores e.id < alertThreshold
      · have hstep : alertsOver scores shap all (e :: t)
            = alertsOver scores shap all t := by
          simp [alertsOver, alertOf, hsc]
        rw [hstep, ih]
        by_cases hx : e.id = x
        · subst hx
          simp [List.count_cons, hsc]
        · have hxx : ¬ x = e.id := fun hh => hx hh.symm
          simp [List.count_cons, hxx]
      · have hstep : alertsOver scores shap all (e :: t)
            = alertRecord scores shap all e
                :: alertsOver scores shap all t := by
          simp [alertsOver, alertOf, hsc]
        rw [hstep, List.filter_cons]
        by_cases hx : e.id = x
        · subst hx
          rw [if_pos (by simp [alertRecord_entityId])]
          simp [ih, hsc, List.count_cons, Nat.add_comm]
        · have hxx : ¬ x = e.id := fun hh => hx hh.symm
          rw [if_neg (by simp [alertRecord_entityId, hx])]
          simp [ih, List.count_cons, hxx]

/-- Unfolding of `runTrainDB` on a non-empty entity table. -/
theorem runTrainDB_of_ne_nil {α : Type} [ToString α] (scores : α → ℚ)
    (shap : α → List (String × ℚ)) (st : DBState α)
    (hne : st.entities ≠ []) :
    runTrainDB scores shap st
      = Except.ok
          (⟨updatedEntities scores st.entities,
            alertsOver scores shap (updatedEntities scores st.entities)
              (updatedEntities scores st.entities),
            clustersFor scores (updatedEntities scores st.entities)⟩,
          (alertsOver scores shap (updatedEntities scores st.entities)
            (updatedEntities scores st.entities)).length) := by
  obtain ⟨h0, t0, hE⟩ := List.exists_cons_of_ne_nil hne
  rw [runTrainDB, hE]
  rfl

/-- Updating risk scores preserves the id sequence. -/
theorem updatedEntities_map_id {α : Type} (scores : α → ℚ)
    (ents : List (EntityRow α)) :
    (updatedEntities scores ents).map (fun e => e.id)
      = ents.map (fun e => e.id) := by
  simp [updatedEntities, List.map_map]

/-- Claim C3: after a (non-degenerate) training run over entities with
pairwise-distinct ids, every entity scoring at least 0.50 has exactly
one alert referring to it, no entity scoring below 0.50 has any, every
stored alert carries a score of at least 0.50, and the resulting state
is independent of whatever alerts and clusters previous runs had stored
(prior alerts are discarded, not merged). -/
theorem c3_alert_threshold {α : Type} [ToString α] [DecidableEq α]
    (scores : α → ℚ) (shap : α → List (String × ℚ)) (st : DBState α)
    (hnodup : (st.entities.map (fun e => e.id)).Nodup)
    (hne : st.entities ≠ []) :
    ∃ st' cnt,
      runTrainDB scores shap st = Except.ok (st', cnt) ∧
      (∀ e ∈ st.entities,
        (st'.alerts.filter (fun a => a.entityId = e.id)).length
          = if alertThreshold ≤ scores e.id then 1 else 0) ∧
      (∀ a ∈ st'.alerts, alertThreshold ≤ a.score) ∧
      (∀ priorAlerts priorClusters,
        runTrainDB scores shap
            ⟨st.entities, priorAlerts, priorClusters⟩
          = Except.ok (st', cnt)) := by
  refine ⟨⟨updatedEntities scores st.entities,
      alertsOver scores shap (updatedEntities scores st.entities)
        (updatedEntities scores st.entities),
      clustersFor scores (updatedEntities scores st.entities)⟩,
    (alertsOver scores shap (updatedEntities scores st.entities)
      (updatedEntities scores st.entities)).length,
    runTrainDB_of_ne_nil scores shap st hne, ?_, ?_, ?_⟩
  · intro e he
    have hcount := alertsOver_count scores shap
      (updatedEntities scores st.entities)
      (updatedEntities scores st.entities) e.id
    have hids : ((updatedEntities scores st.entities).map
        (fun e => e.id)).count e.id = 1 := by
      rw [updatedEntities_map_id]
      exact List.count_eq_one_of_mem hnodup
        (List.mem_map_of_mem (fun e => e.id) he)
    show ((alertsOver scores shap (updatedEntities scores st.entities)
        (updatedEntities scores st.entities)).filter
          (fun a => a.entityId = e.id)).length
      = if alertThreshold ≤ scores e.id then 1 else 0
    rw [hcount, hids]
    by_cases hsc : scores e.id < alertThreshold
    · rw [if_pos hsc, if_neg (not_le.mpr hsc)]
    · rw [if_neg hsc, if_pos (le_of_not_lt hsc)]
  · intro a ha
    obtain ⟨e, _, hfe⟩ := List.mem_filterMap.mp ha
    by_cases hsc : scores e.id < alertThreshold
    · rw [alertOf, if_pos hsc] at hfe
      cases hfe
    · rw [alertOf, if_neg hsc] at hfe
      obtain rfl : alertRecord scores shap
          (updatedEntities scores st.entities) e = a :=
        Option.some.inj hfe
      rw [alertRecord_score]
      exact le_of_not_lt hsc
  · intro priorAlerts priorClusters
    exact runTrainDB_of_ne_nil scores shap
      ⟨st.entities, priorAlerts, priorClusters⟩ hne

/-- Witness for C3 on a two-entity store with scores 0.6 and 0.2. -/
theorem c3_alert_threshold_witness :
    ((DBState.mk [entA, entB] [] []).entities.map
        (fun e => e.id)).Nodup ∧
    (DBState.mk [entA, entB] ([] : List (AlertRow ℕ))
        ([] : List (ClusterRow ℕ))).entities ≠ [] ∧
    (∃ st' cnt,
      runTrainDB scoresAB shapNone (DBState.mk [entA, entB] [] [])
          = Except.ok (st', cnt) ∧
      (∀ e ∈ (DBState.mk [entA, entB]
            ([] : List (AlertRow ℕ)) []).entities,
        (st'.alerts.filter (fun a => a.entityId = e.id)).length
          = if alertThreshold ≤ scoresAB e.id then 1 else 0) ∧
      (∀ a ∈ st'.alerts, alertThreshold ≤ a.score) ∧
      (∀ priorAlerts priorClusters,
        runTrainDB scoresAB shapNone
            ⟨[entA, entB], priorAlerts, priorClusters⟩
          = Except.ok (st', cnt))) :=
  ⟨by simp [entA, entB], by simp,
    c3_alert_threshold scoresAB shapNone (DBState.mk [entA, entB] [] [])
      (by simp [entA, entB]) (by simp)⟩

/-- Claim C8: invoked on a store with no entities, `run_train` fails
with the caller-correctable no-data error (telling the caller to
generate first), an error distinct from every internal failure; no
successor state is produced, so entities, transactions, clusters,
alerts and model runs are untouched. -/
theorem c8_empty_fail {α : Type} [ToString α] (scores : α → ℚ)
    (shap : α → List (String × ℚ)) (st : DBState α)
    (h : st.entities = []) :
    runTrainDB scores shap st = Except.error PipeError.noData ∧
      ∀ m, PipeError.noData ≠ PipeError.internal m := by
  refine ⟨?_, fun m hm => by cases hm⟩
  rw [runTrainDB, h]

/-- Witness for C8 on the concrete empty store. -/
theorem c8_empty_fail_witness :
    (DBState.mk ([] : List (EntityRow ℕ)) [] []).entities = [] ∧
    (runTrainDB scoresAB shapNone
        (DBState.mk ([] : List (EntityRow ℕ)) [] [])
        = Except.error PipeError.noData ∧
      ∀ m, PipeError.noData ≠ PipeError.internal m) :=
  ⟨rfl, c8_empty_fail scoresAB shapNone
    (DBState.mk ([] : List (EntityRow ℕ)) [] []) rfl⟩

/-! ## Theorems for the circular-cluster claim -/

/-- The number of transactions a circular cluster emits equals its
cycle length. -/
theorem length_circularTxs {α : Type} [Inhabited α] (cyc : List α) :
    (circularTxs cyc).length = cyc.length := by
  simp [circularTxs]

/-- The `i`-th circular transaction connects position `i` to position
`(i+1) mod length`. -/
theorem circularTxs_getD {α : Type} [Inhabited α] (cyc : List α) (i : ℕ)
    (hi : i < cyc.length) :
    (circularTxs cyc).getD i (default, default)
      = (cyc.getD i default, cyc.getD ((i + 1) % cyc.length) default) := by
  have hlen : i < (circularTxs cyc).length := by
    rw [length_circularTxs]
    exact hi
  rw [List.getD_eq_getElem _ _ hlen]
  simp [circularTxs]

/-- The sources of a circular cluster's transactions are the cycle
itself, in order. -/
theorem map_fst_circularTxs {α : Type} [Inhabited α] (cyc : List α) :
    (circularTxs cyc).map Prod.fst = cyc := by
  apply List.ext_getElem
  · simp [circularTxs]
  · intro i h1 h2
    simp [circularTxs, List.getD_eq_getElem _ _ h2]
    rw [List.getElem?_eq_getElem h2]
    rfl

/-- The destinations of a circular cluster's transactions are the cycle
rotated by one. -/
theorem map_snd_circularTxs {α : Type} [Inhabited α] (cyc : List α) :
    (circularTxs cyc).map Prod.snd = cyc.rotate 1 := by
  apply List.ext_getElem
  · simp [circularTxs]
  · intro i h1 h2
    have hn : i < cyc.length := by simpa using h2
    have hmod : (i + 1) % cyc.length < cyc.length :=
      Nat.mod_lt _ (by omega)
    simp [circularTxs, List.getElem_rotate, List.getD_eq_getElem _ _ hmod]
    rw [List.getElem?_eq_getElem hmod]
    rfl

/-- A successful label lookup comes either from the accumulator or from
a cluster at the label's position. -/
theorem finalLabelAux_spec {α : Type} [DecidableEq α] (e : α) (k : ℕ) :
    ∀ (clusters : List (List α)) (idx : ℕ) (acc : Option ℕ),
      finalLabelAux clusters e idx acc = some k →
      acc = some k ∨
        (idx ≤ k ∧ k - idx < clusters.length ∧
          e ∈ clusters.getD (k - idx) []) := by
  intro clusters
  induction clusters with
  | nil =>
      intro idx acc h
      exact Or.inl h
  | cons c rest ih =>
      intro idx acc h
      rw [finalLabelAux] at h
      rcases ih (idx + 1) _ h with hacc | ⟨hle, hlt, hmem⟩
      · by_cases hec : e ∈ c
        · rw [if_pos hec] at hacc
          obtain rfl : idx = k := Option.some.inj hacc
          right
          refine ⟨le_refl _, by simp, ?_⟩
          simpa using hec
        · rw [if_neg hec] at hacc
          exact Or.inl hacc
      · right
        refine ⟨by omega, by simp only [List.length_cons]; omega, ?_⟩
        have hshift : k - idx = (k - (idx + 1)) + 1 := by omega
        rw [hshift]
        simpa using hmem

/-- An entity carrying label `k` is a member of the `k`-th cluster. -/
theorem finalLabel_some_mem {α : Type} [DecidableEq α]
    {clusters : List (List α)} {e : α} {k : ℕ}
    (h : finalLabel clusters e = some k) :
    k < clusters.length ∧ e ∈ clusters.getD k [] := by
  rcases finalLabelAux_spec e k clusters 0 none h with hacc | ⟨_, hlt, hmem⟩
  · cases hacc
  · constructor
    · simpa using hlt
    · simpa using hmem

/-- Membership in the end-of-run label group. -/
theorem mem_membersWithLabel_iff {α : Type} [DecidableEq α]
    (clusters : List (List α)) (k : ℕ) (x : α) :
    x ∈ membersWithLabel clusters k ↔
      x ∈ clusters.flatten ∧ finalLabel clusters x = some k := by
  simp [membersWithLabel, List.mem_filter, List.mem_dedup]

/-- Claim C6 (counterexample): the member cycles `[0,1,2]` and
`[2,3,4]`, generated in this order, are valid circular-generation
outcomes (duplicate-free, size within 3-7); entity 2's label is
overwritten by the later cluster, the entities ending the run with
label 0 are `[0,1]`, and cluster 0's transactions restricted to them do
not form a closed directed cycle visiting each such member exactly
once — refuting the claim for this generated dataset. -/
theorem c6_overlap_counterexample :
    (∀ cyc ∈ ([[0, 1, 2], [2, 3, 4]] : List (List ℕ)),
      cyc.Nodup ∧ 3 ≤ cyc.length ∧ cyc.length ≤ 7) ∧
    finalLabel ([[0, 1, 2], [2, 3, 4]] : List (List ℕ)) 2 = some 1 ∧
    membersWithLabel ([[0, 1, 2], [2, 3, 4]] : List (List ℕ)) 0 = [0, 1] ∧
    ¬ IsClosedCycleOn (membersWithLabel [[0, 1, 2], [2, 3, 4]] 0)
        (restrictTxs (circularTxs ([0, 1, 2] : List ℕ))
          (membersWithLabel [[0, 1, 2], [2, 3, 4]] 0)) := by
  refine ⟨by decide, by decide, by decide, by decide⟩

/-- Claim C6 (amended): for every generated circular cluster none of
whose members is relabeled by a later cluster, the cluster's
transactions, restricted to the entities that end the run carrying its
label, form a closed directed cycle visiting each such member exactly
once. -/
theorem c6_cycle_closure {α : Type} [DecidableEq α] [Inhabited α]
    (clusters : List (List α)) (k : ℕ) (hk : k < clusters.length)
    (hnd : (clusters.getD k []).Nodup) (hne : clusters.getD k [] ≠ [])
    (hkeep : ∀ e ∈ clusters.getD k [], finalLabel clusters e = some k) :
    IsClosedCycleOn (membersWithLabel clusters k)
      (restrictTxs (circularTxs (clusters.getD k []))
        (membersWithLabel clusters k)) := by
  have hmemS : ∀ x, x ∈ membersWithLabel clusters k ↔
      x ∈ clusters.getD k [] := by
    intro x
    rw [mem_membersWithLabel_iff]
    constructor
    · rintro ⟨hx, hlab⟩
      exact (finalLabel_some_mem hlab).2
    · intro hx
      refine ⟨?_, hkeep x hx⟩
      refine List.mem_flatten.mpr ⟨clusters.getD k [], ?_, hx⟩
      rw [List.getD_eq_getElem _ _ hk]
      exact List.getElem_mem _
  have hpos : 0 < (clusters.getD k []).length := List.length_pos.mpr hne
  have hS : restrictTxs (circularTxs (clusters.getD k []))
      (membersWithLabel clusters k)
        = circularTxs (clusters.getD k []) := by
    apply List.filter_eq_self.mpr
    intro p hp
    obtain ⟨i, hi, rfl⟩ := List.mem_map.mp hp
    have hin : i < (clusters.getD k []).length := List.mem_range.mp hi
    have hmod : (i + 1) % (clusters.getD k []).length
        < (clusters.getD k []).length := Nat.mod_lt _ hpos
    have h1 : (clusters.getD k []).getD i default ∈ clusters.getD k [] := by
      rw [List.getD_eq_getElem _ _ hin]
      exact List.getElem_mem _
    have h2 : (clusters.getD k []).getD
        ((i + 1) % (clusters.getD k []).length) default
          ∈ clusters.getD k [] := by
      rw [List.getD_eq_getElem _ _ hmod]
      exact List.getElem_mem _
    simp only [decide_eq_true_eq]
    exact ⟨(hmemS _).mpr h1, (hmemS _).mpr h2⟩
  have hnodupS : (membersWithLabel clusters k).Nodup :=
    List.Nodup.filter _ (List.nodup_dedup _)
  have hpermS : (clusters.getD k []).Perm (membersWithLabel clusters k) := by
    apply List.perm_of_nodup_nodup_toFinset_eq hnd hnodupS
    ext x
    simp only [List.mem_toFinset]
    exact (hmemS x).symm
  rw [hS]
  unfold IsClosedCycleOn
  refine ⟨?_, ?_, ?_, ?_⟩
  · apply List.ne_nil_of_length_pos
    rw [length_circularTxs]
    exact hpos
  · rw [map_fst_circularTxs]
    exact hpermS
  · rw [map_snd_circularTxs]
    exact (List.rotate_perm _ _).trans hpermS
  · intro i hi
    rw [length_circularTxs] at hi
    have hmod : (i + 1) % (clusters.getD k []).length
        < (clusters.getD k []).length := Nat.mod_lt _ hpos
    rw [length_circularTxs, circularTxs_getD _ i hi,
      circularTxs_getD _ ((i + 1) % (clusters.getD k []).length) hmod]

/-- Witness for the amended C6 on the single cluster `[0,1,2]`, whose
members all keep label 0. -/
theorem c6_cycle_closure_witness :
    0 < ([[0, 1, 2]] : List (List ℕ)).length ∧
    (([[0, 1, 2]] : List (List ℕ)).getD 0 []).Nodup ∧
    ([[0, 1, 2]] : List (List ℕ)).getD 0 [] ≠ [] ∧
    (∀ e ∈ ([[0, 1, 2]] : List (List ℕ)).getD 0 [],
      finalLabel [[0, 1, 2]] e = some 0) ∧
    IsClosedCycleOn (membersWithLabel [[0, 1, 2]] 0)
      (restrictTxs (circularTxs (([[0, 1, 2]] : List (List ℕ)).getD 0 []))
        (membersWithLabel [[0, 1, 2]] 0)) :=
  ⟨by decide, by decide, by decide, by decide,
    c6_cycle_closure [[0, 1, 2]] 0 (by decide) (by decide) (by decide)
      (by decide)⟩

/-! ## Theorems for the feature-extraction claims -/

theorem foldl_max_eq_zero :
    ∀ (r : List ℕ), (∀ x ∈ r, x = 0) → List.foldl max 0 r = 0 := by
  intro r
  induction r with
  | nil => intro _; rfl
  | cons b t ih =>
      intro h
      have hb : b = 0 := h b (by simp)
      rw [List.foldl_cons, hb]
      exact ih (fun x hx => h x (by simp [hx]))

theorem maxOf_eq_zero (l : List ℕ) (hne : l ≠ []) (h : ∀ x ∈ l, x = 0) :
    maxOf l 1 = 0 := by
  match l, hne with
  | a :: r, _ =>
      have ha : a = 0 := h a (by simp)
      show List.foldl max a r = 0
      rw [ha]
      exact foldl_max_eq_zero r (fun x hx => h x (by simp [hx]))

theorem le_foldl_max (seed : ℕ) (r : List ℕ) :
    seed ≤ List.foldl max seed r := by
  induction r generalizing seed with
  | nil => exact le_refl _
  | cons b t ih =>
      rw [List.foldl_cons]
      exact le_trans (le_max_left seed b) (ih (max seed b))

theorem mem_le_foldl_max (x seed : ℕ) (r : List ℕ) (hx : x ∈ r) :
    x ≤ List.foldl max seed r := by
  induction r generalizing seed with
  | nil => simp at hx
  | cons b t ih =>
      rw [List.foldl_cons]
      rcases List.mem_cons.mp hx with rfl | hx'
      · exact le_trans (le_max_right seed x) (le_foldl_max _ t)
      · exact ih (max seed b) hx'

theorem le_maxOf_of_mem (x : ℕ) (l : List ℕ) (d : ℕ) (hx : x ∈ l) :
    x ≤ maxOf l d := by
  match l, hx with
  | a :: r, hx =>
      show x ≤ List.foldl max a r
      rcases List.mem_cons.mp hx with rfl | hx'
      · exact le_foldl_max x r
      · exact mem_le_foldl_max x a r hx'

theorem nodesList_many :
    nodesList manyEntities ([] : List (TxRec ℕ)) = List.range 8001 := by
  unfold nodesList manyEntities
  rw [List.flatMap_nil, List.append_nil, List.map_map]
  have hcomp : ((fun e : EntityRec ℕ => e.id) ∘
      (fun i => (⟨i, "individual", "US", false, none⟩ : EntityRec ℕ)))
        = fun i => i := by
    funext i
    rfl
  rw [hcomp, List.map_id']
  exact List.Nodup.dedup (List.nodup_range 8001)

theorem maxDeg_many : maxDeg manyEntities ([] : List (TxRec ℕ)) = 0 := by
  unfold maxDeg
  rw [nodesList_many]
  apply maxOf_eq_zero
  · simp
  · intro x hx
    obtain ⟨v, _, rfl⟩ := List.mem_map.mp hx
    rfl

/-- Claim C2 (counterexample): with 8001 entities and no transactions,
every node has degree zero, so `max_d = 0` and the linear-time
centrality fallback's integer division `d / max_d` raises
`ZeroDivisionError` — `compute_node_features` does not return a matrix
at all, refuting the claim for this entity/transaction list. -/
theorem c2_crash_counterexample :
    8000 < nodeCount manyEntities ([] : List (TxRec ℕ)) ∧
    computeNodeFeatures manyEntities ([] : List (TxRec ℕ)) = none := by
  have hn : nodeCount manyEntities ([] : List (TxRec ℕ)) = 8001 := by
    unfold nodeCount
    rw [nodesList_many]
    exact List.length_range 8001
  constructor
  · rw [hn]
    norm_num
  · have hc : centralityOk manyEntities ([] : List (TxRec ℕ)) = false := by
      unfold centralityOk
      rw [if_neg (by rw [hn]; norm_num), maxDeg_many, if_pos rfl]
    unfold computeNodeFeatures
    rw [hc]
    rfl

theorem centralityOk_of {α : Type} [DecidableEq α]
    (es : List (EntityRec α)) (ts : List (TxRec α))
    (h : nodeCount es ts ≤ 8000 ∨ ts ≠ []) :
    centralityOk es ts = true := by
  unfold centralityOk
  by_cases h8 : nodeCount es ts ≤ 8000
  · rw [if_pos h8]
  · rcases h with h8' | hts
    · exact absurd h8' h8
    · rw [if_neg h8]
      obtain ⟨t, ht⟩ := List.exists_mem_of_ne_nil ts hts
      have hpair : (t.src, t.dst) ∈ edgePairs ts := by
        unfold edgePairs
        rw [List.mem_dedup]
        exact List.mem_map_of_mem _ ht
      have hdst : t.dst ∈ nodesList es ts := by
        unfold nodesList
        rw [List.mem_dedup]
        apply List.mem_append_right
        exact List.mem_flatMap.mpr ⟨t, ht, by simp⟩
      have hin1 : 1 ≤ inDegOf ts t.dst := by
        have hmem : (t.src, t.dst)
            ∈ (edgePairs ts).filter (fun p => p.2 = t.dst) := by
          rw [List.mem_filter]
          exact ⟨hpair, by simp⟩
        exact List.length_pos.mpr (List.ne_nil_of_mem hmem)
      have hdeg : 1 ≤ degOf ts t.dst :=
        le_trans hin1 (Nat.le_add_left _ _)
      have hmaxd : 1 ≤ maxDeg es ts :=
        le_trans hdeg (le_maxOf_of_mem _ _ _ (List.mem_map_of_mem _ hdst))
      have hmaxi : 1 ≤ maxInDeg es ts :=
        le_trans hin1 (le_maxOf_of_mem _ _ _ (List.mem_map_of_mem _ hdst))
      rw [if_neg (by omega), if_neg (by omega)]

theorem divOk_of {α : Type} [DecidableEq α]
    (es : List (EntityRec α)) (ts : List (TxRec α))
    (h : ∀ e ∈ es, (outAmounts ts e.id).sum + epsQ ≠ 0) :
    divOk es ts = true := by
  unfold divOk
  rw [List.all_eq_true]
  intro e he
  simpa using h e he

/-- Claim C2 (amended): for every entity list and transaction list such
that the graph has at most 8000 nodes or at least one transaction, and
no entity's total sent amount is exactly −1e-9 (which would make the
in/out-ratio denominator zero), `compute_node_features` returns a
matrix with exactly 18 columns and one row per entity in which no
entry is NaN, +Inf or -Inf. -/
theorem c2_feature_wellformed {α : Type} [DecidableEq α]
    (es : List (EntityRec α)) (ts : List (TxRec α))
    (hcent : nodeCount es ts ≤ 8000 ∨ ts ≠ [])
    (hdiv : ∀ e ∈ es, (outAmounts ts e.id).sum + epsQ ≠ 0) :
    computeNodeFeatures es ts
      = some (buildMatrix es ts, es.map (fun e => e.id), featureNames) ∧
    (buildMatrix es ts).length = es.length ∧
    (∀ r ∈ buildMatrix es ts, r.length = 18) ∧
    featureNames.length = 18 ∧
    (∀ r ∈ buildMatrix es ts, ∀ x ∈ r, x.IsFinite) := by
  refine ⟨?_, ?_, ?_, rfl, ?_⟩
  · unfold computeNodeFeatures
    rw [centralityOk_of es ts hcent, divOk_of es ts hdiv]
    rfl
  · simp [buildMatrix]
  · intro r hr
    obtain ⟨e, he, rfl⟩ := List.mem_map.mp hr
    rw [List.length_map]
    rfl
  · intro r hr x hx
    obtain ⟨e, he, rfl⟩ := List.mem_map.mp hr
    obtain ⟨y, hy, rfl⟩ := List.mem_map.mp hx
    cases y <;> trivial
theorem fin_nonneg_of (v : ℝ) (hv : 0 ≤ v) :
    ∀ q, EFloat.fin v = EFloat.fin q → 0 ≤ q := by
  intro q h
  injection h with h'
  rw [← h']
  exact hv

theorem elog1p_fin_nonneg_of {x : ℝ} (hx : 0 ≤ x) :
    ∀ q, elog1p (EFloat.fin x) = EFloat.fin q → 0 ≤ q := by
  intro q h
  simp only [elog1p] at h
  rw [if_pos (by linarith : (-1:ℝ) < x)] at h
  injection h with h'
  rw [← h']
  exact Real.log_nonneg (by linarith)

theorem esanitize_nonneg_of (x : EFloat)
    (h : ∀ q, x = EFloat.fin q → 0 ≤ q) :
    ∃ q, esanitize x = EFloat.fin q ∧ 0 ≤ q := by
  cases x with
  | fin q => exact ⟨q, rfl, h q rfl⟩
  | pinf => exact ⟨10, rfl, by norm_num⟩
  | ninf => exact ⟨0, rfl, le_refl 0⟩
  | nan => exact ⟨0, rfl, le_refl 0⟩

theorem outAmounts_nonneg {α : Type} [DecidableEq α]
    {ts : List (TxRec α)} (h : ∀ t ∈ ts, 0 ≤ t.amount) (eid : α) :
    ∀ q ∈ outAmounts ts eid, 0 ≤ q := by
  intro q hq
  obtain ⟨t, ht, rfl⟩ := List.mem_map.mp hq
  exact h t (List.mem_of_mem_filter ht)

theorem inAmounts_nonneg {α : Type} [DecidableEq α]
    {ts : List (TxRec α)} (h : ∀ t ∈ ts, 0 ≤ t.amount) (eid : α) :
    ∀ q ∈ inAmounts ts eid, 0 ≤ q := by
  intro q hq
  obtain ⟨t, ht, rfl⟩ := List.mem_map.mp hq
  exact h t (List.mem_of_mem_filter ht)

theorem meanAmt_nonneg (l : List ℚ) (h : ∀ q ∈ l, 0 ≤ q) :
    0 ≤ meanAmt l := by
  unfold meanAmt
  split
  · exact le_refl 0
  · exact div_nonneg (List.sum_nonneg h) (by positivity)

theorem le_foldl_maxQ (seed : ℚ) (r : List ℚ) :
    seed ≤ List.foldl max seed r := by
  induction r generalizing seed with
  | nil => exact le_refl _
  | cons b t ih =>
      rw [List.foldl_cons]
      exact le_trans (le_max_left seed b) (ih (max seed b))

theorem maxAmt_nonneg (l : List ℚ) (h : ∀ q ∈ l, 0 ≤ q) :
    0 ≤ maxAmt l := by
  match l with
  | [] => exact le_refl 0
  | a :: r =>
      have ha : 0 ≤ a := h a (by simp)
      exact le_trans ha (le_foldl_maxQ a r)

theorem sorted_sortedTs {α : Type} [DecidableEq α]
    (ts : List (TxRec α)) (eid : α) :
    (sortedTs ts eid).Sorted (fun a b => a ≤ b) :=
  List.sorted_insertionSort _ _

theorem secs_sorted {α : Type} [DecidableEq α]
    (ts : List (TxRec α)) (eid : α) :
    (secsOf ts eid).Sorted (fun a b => a ≤ b) := by
  unfold secsOf
  exact List.Pairwise.map _ (fun a b hab => by linarith) (sorted_sortedTs ts eid)

theorem zipWith_sub_nonneg :
    ∀ (l : List ℚ), l.Sorted (fun a b => a ≤ b) →
      ∀ x ∈ List.zipWith (fun a b => b - a) l l.tail, 0 ≤ x := by
  intro l
  induction l with
  | nil =>
      intro _ x hx
      simp at hx
  | cons a t ih =>
      intro hs x hx
      cases t with
      | nil => simp at hx
      | cons b t' =>
          rw [show (a :: b :: t').tail = b :: t' from rfl,
            List.zipWith_cons_cons] at hx
          rcases List.mem_cons.mp hx with rfl | hx'
          · have hab : a ≤ b := (List.sorted_cons.mp hs).1 b (by simp)
            linarith
          · exact ih (List.sorted_cons.mp hs).2 x hx'

theorem deltas_nonneg {α : Type} [DecidableEq α]
    (ts : List (TxRec α)) (eid : α) :
    ∀ x ∈ deltasOf ts eid, 0 ≤ x := by
  unfold deltasOf
  exact zipWith_sub_nonneg _ (secs_sorted ts eid)

theorem meanDelta_nonneg {α : Type} [DecidableEq α]
    (ts : List (TxRec α)) (eid : α) : 0 ≤ meanDelta ts eid := by
  unfold meanDelta
  split
  · exact le_refl 0
  · exact div_nonneg (List.sum_nonneg (deltas_nonneg ts eid)) (by positivity)

theorem burstinessOf_nonneg {α : Type} [DecidableEq α]
    (ts : List (TxRec α)) (eid : α) : 0 ≤ burstinessOf ts eid := by
  unfold burstinessOf
  split
  · apply div_nonneg (Real.sqrt_nonneg _)
    have hm : (0:ℚ) ≤ meanDelta ts eid + epsQ :=
      add_nonneg (meanDelta_nonneg ts eid) (by norm_num [epsQ])
    exact_mod_cast hm
  · exact le_refl 0

theorem degCent_nonneg {α : Type} [DecidableEq α]
    (es : List (EntityRec α)) (ts : List (TxRec α)) (v : α) :
    0 ≤ degCent es ts v := by
  unfold degCent
  split
  · split
    · norm_num
    · apply div_nonneg (by positivity)
      have h2 : 2 ≤ nodeCount es ts := by omega
      have : (2:ℝ) ≤ (nodeCount es ts : ℝ) := by exact_mod_cast h2
      linarith
  · exact div_nonneg (by positivity) (by positivity)

theorem inDegCent_nonneg {α : Type} [DecidableEq α]
    (es : List (EntityRec α)) (ts : List (TxRec α)) (v : α) :
    0 ≤ inDegCent es ts v := by
  unfold inDegCent
  split
  · split
    · norm_num
    · apply div_nonneg (by positivity)
      have h2 : 2 ≤ nodeCount es ts := by omega
      have : (2:ℝ) ≤ (nodeCount es ts : ℝ) := by exact_mod_cast h2
      linarith
  · exact div_nonneg (by positivity) (by positivity)

/-- Claim C10 (amended): provided every transaction amount is
nonnegative (as the generator guarantees), every entry of the matrix
returned by `compute_node_features` is a finite value that is at least
0: the log1p aggregates, diversities, capped burstiness, centralities,
type code and country-risk indicator are nonnegative by construction,
and the final replacement maps NaN and -Inf to 0.0 and +Inf to 10.0. -/
theorem c10_nonneg {α : Type} [DecidableEq α]
    (es : List (EntityRec α)) (ts : List (TxRec α))
    (hamt : ∀ t ∈ ts, 0 ≤ t.amount)
    (M : List (List EFloat)) (ids : List α) (names : List String)
    (hres : computeNodeFeatures es ts = some (M, ids, names)) :
    ∀ r ∈ M, ∀ x ∈ r, ∃ q, x = EFloat.fin q ∧ 0 ≤ q := by
  have hM : M = buildMatrix es ts := by
    unfold computeNodeFeatures at hres
    by_cases hc : (centralityOk es ts && divOk es ts) = true
    · rw [if_pos hc] at hres
      have := Option.some.inj hres
      exact (congrArg Prod.fst this).symm
    · rw [if_neg hc] at hres
      cases hres
  subst hM
  intro r hr x hx
  obtain ⟨e, he, rfl⟩ := List.mem_map.mp hr
  obtain ⟨y, hy, rfl⟩ := List.mem_map.mp hx
  apply esanitize_nonneg_of
  have hoa := outAmounts_nonneg hamt e.id
  have hia := inAmounts_nonneg hamt e.id
  have hsumo : (0:ℚ) ≤ (outAmounts ts e.id).sum := List.sum_nonneg hoa
  have hsumi : (0:ℚ) ≤ (inAmounts ts e.id).sum := List.sum_nonneg hia
  simp only [featureRow, List.mem_cons, List.not_mem_nil, or_false] at hy
  rcases hy with rfl|rfl|rfl|rfl|rfl|rfl|rfl|rfl|rfl|rfl|rfl|rfl|rfl|rfl|rfl|rfl|rfl|rfl
  · exact elog1p_fin_nonneg_of (by exact_mod_cast hsumo)
  · exact elog1p_fin_nonneg_of (by exact_mod_cast hsumi)
  · exact elog1p_fin_nonneg_of (by positivity)
  · exact elog1p_fin_nonneg_of (by positivity)
  · exact elog1p_fin_nonneg_of
      (by exact_mod_cast meanAmt_nonneg _ hoa)
  · exact elog1p_fin_nonneg_of
      (by exact_mod_cast meanAmt_nonneg _ hia)
  · exact elog1p_fin_nonneg_of
      (by exact_mod_cast maxAmt_nonneg _ hoa)
  · exact elog1p_fin_nonneg_of
      (by exact_mod_cast maxAmt_nonneg _ hia)
  · refine elog1p_fin_nonneg_of ?_
    have hq : (0:ℚ) ≤ (inAmounts ts e.id).sum
        / ((outAmounts ts e.id).sum + epsQ) :=
      div_nonneg hsumi (add_nonneg hsumo (by norm_num [epsQ]))
    exact_mod_cast hq
  · exact fin_nonneg_of _ (by positivity)
  · exact fin_nonneg_of _ (by positivity)
  · exact elog1p_fin_nonneg_of (by positivity)
  · exact fin_nonneg_of _
      (le_min (burstinessOf_nonneg ts e.id) (by norm_num))
  · exact elog1p_fin_nonneg_of (by positivity)
  · exact fin_nonneg_of _ (degCent_nonneg es ts e.id)
  · exact fin_nonneg_of _ (inDegCent_nonneg es ts e.id)
  · exact fin_nonneg_of _ (by positivity)
  · refine fin_nonneg_of _ ?_
    split
    · norm_num
    · exact le_refl 0

/-- Claim C10 (counterexample): with a single transaction of amount
−0.5 (a self loop), the first feature `log1p(total_sent)` equals
`log(1/2) < 0`, is finite, and survives `nan_to_num` unchanged, so the
returned matrix contains a negative entry — refuting the claim for
arbitrary transaction lists. -/
theorem c10_negative_counterexample :
    computeNodeFeatures entNeg txNeg
      = some (buildMatrix entNeg txNeg, entNeg.map (fun e => e.id),
          featureNames) ∧
    ∃ q, ((buildMatrix entNeg txNeg).headD []).headD (EFloat.fin 0)
        = EFloat.fin q ∧ q < 0 := by
  have hsum : (outAmounts txNeg (0:ℕ)).sum = -(1/2) := by
    norm_num [outAmounts, outTxs, txNeg]
  constructor
  · have hco := centralityOk_of entNeg txNeg (Or.inl (by decide))
    have hdo := divOk_of entNeg txNeg (by
      intro e he
      obtain rfl := List.mem_singleton.mp he
      rw [show (⟨0, "individual", "US", false, none⟩ : EntityRec ℕ).id
          = 0 from rfl, hsum]
      norm_num [epsQ])
    unfold computeNodeFeatures
    rw [hco, hdo]
    rfl
  · refine ⟨Real.log (1 + ((-(1/2) : ℚ) : ℝ)), ?_, ?_⟩
    · have hhead : ((buildMatrix entNeg txNeg).headD []).headD (EFloat.fin 0)
          = esanitize (elog1p (EFloat.fin
              (((outAmounts txNeg (0:ℕ)).sum : ℚ) : ℝ))) := by
        simp [buildMatrix, entNeg, featureRow]
      rw [hhead, hsum]
      have hlt : (-1:ℝ) < ((-(1/2) : ℚ) : ℝ) := by
        push_cast
        norm_num
      simp only [elog1p]
      rw [if_pos hlt]
      rfl
    · have : (1 + ((-(1/2) : ℚ) : ℝ)) = 1/2 := by
        push_cast
        norm_num
      rw [this]
      exact Real.log_neg (by norm_num) (by norm_num)

/-- Witness for the amended C2 on one entity and no transactions. -/
theorem c2_feature_wellformed_witness :
    (nodeCount entFeat ([] : List (TxRec ℕ)) ≤ 8000 ∨
      ([] : List (TxRec ℕ)) ≠ []) ∧
    (∀ e ∈ entFeat,
      (outAmounts ([] : List (TxRec ℕ)) e.id).sum + epsQ ≠ 0) ∧
    (computeNodeFeatures entFeat ([] : List (TxRec ℕ))
        = some (buildMatrix entFeat [], entFeat.map (fun e => e.id),
            featureNames) ∧
      (buildMatrix entFeat ([] : List (TxRec ℕ))).length = entFeat.length ∧
      (∀ r ∈ buildMatrix entFeat ([] : List (TxRec ℕ)), r.length = 18) ∧
      featureNames.length = 18 ∧
      (∀ r ∈ buildMatrix entFeat ([] : List (TxRec ℕ)),
        ∀ x ∈ r, x.IsFinite)) := by
  have hdivw : ∀ e ∈ entFeat,
      (outAmounts ([] : List (TxRec ℕ)) e.id).sum + epsQ ≠ 0 := by
    intro e he
    norm_num [outAmounts, outTxs, epsQ]
  exact ⟨Or.inl (by decide), hdivw,
    c2_feature_wellformed entFeat [] (Or.inl (by decide)) hdivw⟩

/-- Witness for the amended C10 on one entity and no transactions. -/
theorem c10_nonneg_witness :
    (∀ t ∈ ([] : List (TxRec ℕ)), 0 ≤ t.amount) ∧
    computeNodeFeatures entFeat ([] : List (TxRec ℕ))
      = some (buildMatrix entFeat [], entFeat.map (fun e => e.id),
          featureNames) ∧
    (∀ r ∈ buildMatrix entFeat ([] : List (TxRec ℕ)),
      ∀ x ∈ r, ∃ q, x = EFloat.fin q ∧ 0 ≤ q) := by
  have hres : computeNodeFeatures entFeat ([] : List (TxRec ℕ))
      = some (buildMatrix entFeat [], entFeat.map (fun e => e.id),
          featureNames) := by
    have hco := centralityOk_of entFeat ([] : List (TxRec ℕ))
      (Or.inl (by decide))
    have hdo := divOk_of entFeat ([] : List (TxRec ℕ)) (by
      intro e he
      norm_num [outAmounts, outTxs, epsQ])
    unfold computeNodeFeatures
    rw [hco, hdo]
    rfl
  exact ⟨by simp, hres,
    c10_nonneg entFeat [] (by simp) _ _ _ hres⟩

end AML
